/-
  Verification of the per-camera stream supervisor of nodejs-rtsp-viewer.

  Shallow embedding of:
  - `_calculateReconnectDelay` and the reconnection defaults (src/server/config.js);
  - the HLS playlist endpoint `app.get("/api/stream/:cameraId/playlist.m3u8")`
    (manifest proxy) from the server code;
  - the `StreamManager` class (src/unnamed/part_000): per-camera sessions,
    `startStream`/`stopStream`/`getStatus`, the ffmpeg `start`/`error`/`end`
    event handlers, `_scheduleReconnect` and the reconnect-timer machinery.

  JavaScript numbers in the backoff computation are modelled with `ℚ`: every
  intermediate value of `Math.min(1000 * Math.pow(1.5, n), 30000)` in the
  reachable range is exactly representable as a binary64 float (1.5 = 3/2 is a
  dyadic rational and 1000*(3/2)^n stays far below 2^53 before the 30000 cap
  takes over), so the rational computation coincides with the float one.

  Strings are modelled as `List Char` where character-level scanning is needed
  (the regex replacements of the playlist handler); `Char.isWhitespace` stands
  for the regex class `\s` (they agree on ASCII whitespace, which is all that
  occurs in manifests). Filesystem and process side effects are modelled as an
  event log (`Ev`), and the Node.js timer table as an explicit list of pending
  `setTimeout` handles.
-/
import Mathlib

namespace RtspViewer

/-! Definitions: the shallow embedding of the supervisor, scheduler and manifest proxy. -/

/-! ## Backoff scheduler: `_calculateReconnectDelay` and `config.reconnection` -/
/-- Model of `config.reconnection.initialDelay` (src/server/config.js line 146). -/
def initialDelay : ℚ := 1000

/-- Model of `config.reconnection.maxDelay` (src/server/config.js line 147). -/
def maxDelay : ℚ := 30000

/-- Model of `config.reconnection.backoffMultiplier = 1.5` (src/server/config.js line 148). -/
def backoffMultiplier : ℚ := 3 / 2

/-- Model of `_calculateReconnectDelay(reconnectAttempts)` (src/unnamed/part_000 lines 571-578):
    `Math.floor(Math.min(initialDelay * Math.pow(backoffMultiplier, n), maxDelay))`. -/
def calculateReconnectDelay (reconnectAttempts : ℕ) : ℤ :=
  ⌊min (initialDelay * backoffMultiplier ^ reconnectAttempts) maxDelay⌋

/-! ## Manifest proxy: the playlist endpoint -/
/-- The end-of-stream terminator marker `#EXT-X-ENDLIST`. -/
def endlistMarker : List Char := "#EXT-X-ENDLIST".toList

/-- Scan for `replace(/#EXT-X-ENDLIST\s*\n?/g, "")`: each occurrence of the
    marker, together with all whitespace that immediately follows it (the
    greedy `\s*` absorbs any newline, making the trailing `\n?` match empty),
    is deleted, and scanning resumes after the deleted region, exactly like a
    JavaScript global replace. The fuel argument (always instantiated with the
    length of the list) only serves to make the recursion structural. -/
def stripEndlistAux : ℕ → List Char → List Char
  | _, [] => []
  | 0, l => l
  | fuel + 1, c :: cs =>
    if endlistMarker.isPrefixOf (c :: cs) then
      stripEndlistAux fuel (((c :: cs).drop endlistMarker.length).dropWhile Char.isWhitespace)
    else
      c :: stripEndlistAux fuel cs

/-- Model of `playlistContent.replace(/#EXT-X-ENDLIST\s*\n?/g, "")`. -/
def stripEndlist (l : List Char) : List Char := stripEndlistAux l.length l

/-- One line matches the regex `^([^#\/\s][^\s]*\.ts)$` of the segment-path
    rewrite: nonempty, first character not `#`, `/` or whitespace, no
    whitespace anywhere, and ending in `.ts` (with at least one character
    before the suffix). -/
def isSegmentLine : List Char → Bool
  | [] => false
  | c :: cs =>
    !(c == '#') && !(c == '/') && !c.isWhitespace &&
    cs.all (fun ch => !ch.isWhitespace) && ".ts".toList.isSuffixOf cs

/-- The replacement `/hls/${cameraId}/$1` applied to one line of the playlist
    when the line matches the segment regex; all other lines are unchanged. -/
def rewriteLine (cameraId : String) (l : List Char) : List Char :=
  if isSegmentLine l then "/hls/".toList ++ cameraId.toList ++ '/' :: l else l

/-- Split at the line boundaries the `m` flag of the regex anchors to (`\n`). -/
def splitOnNl : List Char → List (List Char)
  | [] => [[]]
  | c :: cs =>
    if c == '\n' then [] :: splitOnNl cs
    else
      match splitOnNl cs with
      | [] => [[c]]
      | l :: ls => (c :: l) :: ls

/-- Joins lines back with `\n` separators (inverse of `splitOnNl`). -/
def joinNl : List (List Char) → List Char
  | [] => []
  | [l] => l
  | l :: ls => l ++ '\n' :: joinNl ls

/-- A list of lines, each terminated by a newline: the shape of a manifest
    file as ffmpeg writes it. -/
def flatLines : List (List Char) → List Char
  | [] => []
  | l :: ls => l ++ '\n' :: flatLines ls

/-- The playlist-body transformation of the `/api/stream/:cameraId/playlist.m3u8`
    handler when the file exists: first
    `playlistContent.replace(/#EXT-X-ENDLIST\s*\n?/g, "")`, then
    `playlistContent.replace(/^([^#\/\s][^\s]*\.ts)$/gm, "/hls/<cameraId>/$1")`
    (the multiline anchored rewrite acts independently on each `\n`-separated
    line). -/
def rewritePlaylistChars (cameraId : String) (content : List Char) : List Char :=
  joinNl ((splitOnNl (stripEndlist content)).map (rewriteLine cameraId))

/-- String-level wrapper of `rewritePlaylistChars`. -/
def rewritePlaylist (cameraId content : String) : String :=
  ⟨rewritePlaylistChars cameraId content.toList⟩

/-- Reading the playlist file can find it, miss it (`fs.existsSync` false), or
    fail (the `catch` branch). -/
inductive FileRead
  | missing
  | ok (content : String)
  | readError

/-- The `Content-Type` header value set by the playlist endpoint. -/
def mpegurlContentType : String := "application/vnd.apple.mpegurl"

/-- The literal fallback playlist served when the file does not exist. -/
def emptyPlaylistStarting : String :=
  "#EXTM3U\n#EXT-X-VERSION:6\n#EXT-X-TARGETDURATION:2\n#EXT-X-MEDIA-SEQUENCE:0\n#EXT-X-INDEPENDENT-SEGMENTS\n# Stream is starting, please wait...\n"

/-- The literal fallback playlist served when reading the file fails. -/
def emptyPlaylistError : String :=
  "#EXTM3U\n#EXT-X-VERSION:6\n#EXT-X-TARGETDURATION:2\n#EXT-X-MEDIA-SEQUENCE:0\n#EXT-X-INDEPENDENT-SEGMENTS\n# Error reading playlist, retrying...\n"

/-- The observable parts of the HTTP response of the playlist endpoint. -/
structure HttpResponse where
  status : ℕ
  contentType : String
  body : String

/-- Model of `app.get("/api/stream/:cameraId/playlist.m3u8")`: rewrite the playlist if
    it can be read, otherwise serve a well-formed empty playlist; every branch
    answers 200 with the mpegurl content type (`res.send` defaults to 200 and
    the catch branch sets `res.status(200)` explicitly). -/
def renderPlaylist (cameraId : String) (file : FileRead) : HttpResponse :=
  match file with
  | .ok content =>
    { status := 200, contentType := mpegurlContentType
      body := rewritePlaylist cameraId content }
  | .missing =>
    { status := 200, contentType := mpegurlContentType
      body := emptyPlaylistStarting }
  | .readError =>
    { status := 200, contentType := mpegurlContentType
      body := emptyPlaylistError }

/-- Checks that a body is a well-formed zero-segment manifest: the fixed
    header `#EXTM3U` on the first line, a `#EXT-X-TARGETDURATION` directive on
    some line, every line blank or a `#` directive line, and no segment line. -/
def isWellFormedEmptyManifest (s : String) : Bool :=
  let ls := splitOnNl s.toList
  (ls.headD [] == "#EXTM3U".toList) &&
  ls.any (fun l => "#EXT-X-TARGETDURATION".toList.isPrefixOf l) &&
  ls.all (fun l => l.isEmpty || (l.headD ' ' == '#')) &&
  ls.all (fun l => !(isSegmentLine l))

/-- Does `pat` occur as a contiguous substring of the list?
    (JS `String.prototype.includes`.) -/
def containsSub (pat : List Char) : List Char → Bool
  | [] => pat.isEmpty
  | c :: cs => pat.isPrefixOf (c :: cs) || containsSub pat cs

/-- Well-formedness of one manifest line: no embedded newline, and either it
    is exactly the `#EXT-X-ENDLIST` marker line, or it does not contain the
    marker as a substring, is nonempty and does not begin with whitespace. -/
def LineOK (l : List Char) : Prop :=
  '\n' ∉ l ∧
    (l = endlistMarker ∨
      (containsSub endlistMarker l = false ∧ l ≠ [] ∧ (l.headD ' ').isWhitespace = false))

instance (l : List Char) : Decidable (LineOK l) := by
  unfold LineOK
  infer_instance

/-! ## StreamManager: per-camera sessions and the supervisor state machine

The `StreamManager` constructor fills `this.streams` with one entry per
configured camera:
`{ camera, ffmpegProcess: null, isStreaming: false, reconnectAttempts: 0, reconnectTimer: null }`.
The ffmpeg process handle is modelled by a `Bool` (present or `null`), the
timer handle by an `Option ℕ` (the `setTimeout` return value), and the Node.js
runtime's table of armed, not-yet-fired timers by an explicit list of
(camera id, timer id) pairs; `setTimeout` appends a fresh id, `clearTimeout`
removes it, and a timer can fire only while its id is in the table. Process
launches, `SIGTERM` kills, `_ensureHlsDirectory` calls and `_updateStatus`
callback invocations are recorded in an event log. -/
/-- A configured camera (`config.cameras[i]`): only the fields the supervisor
    reads are kept. -/
structure Camera where
  id : String
  name : String
deriving DecidableEq

/-- The record published to the `onStatusChange` callback by `_updateStatus`. -/
structure StatusRecord where
  cameraId : String
  cameraName : String
  status : String
  message : String
  isStreaming : Bool
  reconnectAttempts : ℕ
deriving DecidableEq

/-- Observable side effects of the supervisor. -/
inductive Ev
  | ensureDir (cameraId : String)
  | launch (cameraId : String)
  | kill (cameraId : String)
  | publish (record : StatusRecord)
deriving DecidableEq

/-- One entry of `this.streams`: the per-camera session. -/
structure Session where
  camera : Camera
  ffmpegProcess : Bool
  isStreaming : Bool
  reconnectAttempts : ℕ
  reconnectTimer : Option ℕ
deriving DecidableEq

/-- The `StreamManager` state together with the runtime timer table and the
    event log. -/
structure Manager where
  streams : List (String × Session)
  pending : List (String × ℕ)
  nextTimer : ℕ
  events : List Ev
deriving DecidableEq

/-- Model of `this.streams.get(c)`. -/
def lookupS : List (String × Session) → String → Option Session
  | [], _ => none
  | (k, v) :: rest, c => if k = c then some v else lookupS rest c

/-- Overwrite the session stored under a key (JS mutates the entry in place). -/
def setS : List (String × Session) → String → Session → List (String × Session)
  | [], _, _ => []
  | (k, v) :: rest, c, s =>
    if k = c then (k, s) :: setS rest c s else (k, v) :: setS rest c s

/-- Model of `config.cameras[0]?.id`: the streams map is built from `config.cameras`
    in order, so the first configured camera id is the first key. -/
def firstCameraId (mgr : Manager) : Option String :=
  mgr.streams.head?.map (fun p => p.1)

/-- Model of `cameraId || config.cameras[0]?.id`: a `null`/absent or empty-string
    (falsy) argument falls back to the first configured camera. -/
def resolveTarget (mgr : Manager) : Option String → Option String
  | none => firstCameraId mgr
  | some s => if s = "" then firstCameraId mgr else some s

/-- Model of `_updateStatus(cameraId, status, message)`: publish a record derived from
    the current session to the status callback. -/
def updateStatus (mgr : Manager) (c status msg : String) : Manager :=
  match lookupS mgr.streams c with
  | none => mgr
  | some st =>
    { mgr with
      events := mgr.events ++ [.publish
        { cameraId := c, cameraName := st.camera.name, status := status,
          message := msg, isStreaming := st.isStreaming,
          reconnectAttempts := st.reconnectAttempts }] }

/-- Model of `_ensureHlsDirectory(cameraId)`: a filesystem-only operation (create the
    directory or delete stale `.ts`/`.m3u8` files); recorded as an event. -/
def ensureHlsDirectory (mgr : Manager) (c : String) : Manager :=
  { mgr with events := mgr.events ++ [.ensureDir c] }

/-- Model of `_startFFmpeg(cameraId)`: build the ffmpeg command, ensure the HLS
    directory, store the new process handle in the session and run it. The
    `start`/`stderr`/`error`/`end` handlers it registers are modelled as the
    separate transition functions below, since they run asynchronously. -/
def startFFmpeg (mgr : Manager) (c : String) : Manager :=
  match lookupS mgr.streams c with
  | none => mgr
  | some st =>
    let mgr1 := ensureHlsDirectory mgr c
    { mgr1 with
      streams := setS mgr1.streams c { st with ffmpegProcess := true },
      events := mgr1.events ++ [.launch c] }

/-- Model of `startStream(cameraId)` (src/unnamed/part_000 lines 26-42). -/
def startStream (mgr : Manager) (cameraId : Option String) : Manager :=
  match resolveTarget mgr cameraId with
  | none => mgr
  | some t =>
    match lookupS mgr.streams t with
    | none => mgr
    | some st =>
      if st.isStreaming then mgr
      else startFFmpeg (ensureHlsDirectory mgr t) t

/-- Model of `stopStream(cameraId)` (src/unnamed/part_000 lines 47-69): clear a pending
    timer, kill a running process, reset the flags and counter, publish
    `"stopped"`. -/
def stopStream (mgr : Manager) (cameraId : Option String) : Manager :=
  match resolveTarget mgr cameraId with
  | none => mgr
  | some t =>
    match lookupS mgr.streams t with
    | none => mgr
    | some st =>
      updateStatus
        { mgr with
          pending :=
            match st.reconnectTimer with
            | some tid => mgr.pending.filter (fun p => !(p.1 == t && p.2 == tid))
            | none => mgr.pending,
          events := mgr.events ++ (if st.ffmpegProcess then [.kill t] else []),
          streams := setS mgr.streams t
            { st with reconnectTimer := none, ffmpegProcess := false,
                      isStreaming := false, reconnectAttempts := 0 } }
        t "stopped" ""

/-- Model of `_scheduleReconnect(cameraId)` (src/unnamed/part_000 lines 543-566): no-op
    when the session is unknown or a timer is already pending; otherwise arm a
    fresh `setTimeout` and store its handle. The computed delay only affects
    when the timer fires, which the interleaving model leaves open. -/
def scheduleReconnect (mgr : Manager) (c : String) : Manager :=
  match lookupS mgr.streams c with
  | none => mgr
  | some st =>
    match st.reconnectTimer with
    | some _ => mgr
    | none =>
      let tid := mgr.nextTimer
      { mgr with
        streams := setS mgr.streams c { st with reconnectTimer := some tid },
        pending := mgr.pending ++ [(c, tid)],
        nextTimer := tid + 1 }

/-- The body of the `setTimeout` callback armed by `_scheduleReconnect`
    (src/unnamed/part_000 lines 556-565): clear the handle, increment the
    attempt counter, publish `"reconnecting"`, call `_startFFmpeg`. Note that
    it performs no check of the current session state. -/
def reconnectCallback (mgr : Manager) (c : String) : Manager :=
  match lookupS mgr.streams c with
  | none => mgr
  | some st =>
    let st1 := { st with reconnectTimer := none,
                         reconnectAttempts := st.reconnectAttempts + 1 }
    let mgr1 := { mgr with streams := setS mgr.streams c st1 }
    let mgr2 := updateStatus mgr1 c "reconnecting"
      ("Attempt " ++ toString st1.reconnectAttempts)
    startFFmpeg mgr2 c

/-- The Node.js runtime fires an armed timer: only a timer still in the
    pending table can fire (a `clearTimeout`-cancelled timer never runs its
    callback); firing dequeues it and runs the callback. -/
def fireTimer (mgr : Manager) (c : String) (tid : ℕ) : Manager :=
  if (c, tid) ∈ mgr.pending then
    reconnectCallback
      { mgr with pending := mgr.pending.filter (fun p => !(p.1 == c && p.2 == tid)) } c
  else mgr

/-- The ffmpeg `"start"` event handler (src/unnamed/part_000 lines 432-440):
    mark the session streaming, reset the attempt counter, publish
    `"streaming"`. (The `_streamStartTime` and `_h264ErrorLogged` debug fields
    it also sets are log-only and not modelled.) -/
def onStart (mgr : Manager) (c : String) : Manager :=
  match lookupS mgr.streams c with
  | none => mgr
  | some st =>
    let st1 := { st with isStreaming := true, reconnectAttempts := 0 }
    updateStatus { mgr with streams := setS mgr.streams c st1 } c "streaming" ""

/-- Model of `err.message.includes("decode") || err.message.includes("Invalid data") ||
    err.message.includes("error while decoding")`. -/
def isDecodingError (msg : String) : Bool :=
  containsSub "decode".toList msg.toList ||
  containsSub "Invalid data".toList msg.toList ||
  containsSub "error while decoding".toList msg.toList

/-- The ffmpeg `"error"` event handler (src/unnamed/part_000 lines 489-528):
    a decoding error while streaming is logged and ignored; any other error
    clears the flags and handle, publishes `"error"` with the message, and
    invokes `_scheduleReconnect`. -/
def onError (mgr : Manager) (c : String) (errMsg : String) : Manager :=
  match lookupS mgr.streams c with
  | none => mgr
  | some st =>
    if isDecodingError errMsg && st.isStreaming then mgr
    else
      let st1 := { st with isStreaming := false, ffmpegProcess := false }
      let mgr1 := updateStatus { mgr with streams := setS mgr.streams c st1 }
        c "error" errMsg
      scheduleReconnect mgr1 c

/-- The ffmpeg `"end"` event handler (src/unnamed/part_000 lines 529-535):
    clear the flags and handle, publish `"ended"`, invoke
    `_scheduleReconnect`. -/
def onEnd (mgr : Manager) (c : String) : Manager :=
  match lookupS mgr.streams c with
  | none => mgr
  | some st =>
    let st1 := { st with isStreaming := false, ffmpegProcess := false }
    let mgr1 := updateStatus { mgr with streams := setS mgr.streams c st1 }
      c "ended" ""
    scheduleReconnect mgr1 c

/-- The per-camera projection returned by `getStatus`. -/
structure StatusView where
  cameraId : String
  cameraName : String
  isStreaming : Bool
  reconnectAttempts : ℕ
deriving DecidableEq

/-- Model of `getStatus` returns either one camera's record (possibly `null`) or the
    map of all records. -/
inductive StatusResult
  | single : Option StatusView → StatusResult
  | all : List (String × StatusView) → StatusResult
deriving DecidableEq

/-- The status projection of one session. -/
def statusView (c : String) (st : Session) : StatusView :=
  { cameraId := c, cameraName := st.camera.name,
    isStreaming := st.isStreaming, reconnectAttempts := st.reconnectAttempts }

/-- Model of `getStatus(cameraId)` (src/unnamed/part_000 lines 92-117): a truthy
    (non-empty) camera id selects one camera — `null` for an unknown id — and
    a falsy one returns the all-cameras map. -/
def getStatus (mgr : Manager) (cameraId : Option String) : StatusResult :=
  match cameraId with
  | some c =>
    if c = "" then .all (mgr.streams.map (fun p => (p.1, statusView p.1 p.2)))
    else
      match lookupS mgr.streams c with
      | none => .single none
      | some st => .single (some (statusView c st))
  | none => .all (mgr.streams.map (fun p => (p.1, statusView p.1 p.2)))

/-! ### Timer-table invariant -/
/-- The ids of the pending timers armed for one camera. -/
def timersFor : List (String × ℕ) → String → List ℕ
  | [], _ => []
  | (k, v) :: rest, c => if k = c then v :: timersFor rest c else timersFor rest c

/-- The reconnect-timer handles a session map stores for one camera: one when
    `reconnectTimer` is set, none otherwise, and none for unknown cameras. -/
def sessionTimers (streams : List (String × Session)) (c : String) : List ℕ :=
  match lookupS streams c with
  | some st => st.reconnectTimer.toList
  | none => []

/-- The single-pending-timer invariant: for every camera the runtime timer
    table contains exactly the timers whose handle the session stores — one
    when `reconnectTimer` is set, none otherwise (and none for unknown
    cameras). -/
def TimerInv (mgr : Manager) : Prop :=
  ∀ c, timersFor mgr.pending c = sessionTimers mgr.streams c

def demoLines : List (List Char) :=
  ["#EXTM3U".toList, "#EXT-X-TARGETDURATION:2".toList,
   "segment_7.ts".toList, "#EXT-X-ENDLIST".toList]

def demoCamera : Camera := { id := "camera1", name := "Camera 1" }

def stoppedSession : Session :=
  { camera := demoCamera, ffmpegProcess := false, isStreaming := false,
    reconnectAttempts := 0, reconnectTimer := none }

def startingSession : Session := { stoppedSession with ffmpegProcess := true }

def streamingSession : Session :=
  { camera := demoCamera, ffmpegProcess := true, isStreaming := true,
    reconnectAttempts := 0, reconnectTimer := none }

def wornSession : Session :=
  { camera := demoCamera, ffmpegProcess := true, isStreaming := false,
    reconnectAttempts := 1000000, reconnectTimer := none }

def armedSession : Session :=
  { camera := demoCamera, ffmpegProcess := false, isStreaming := false,
    reconnectAttempts := 2, reconnectTimer := some 0 }

def mkManager (st : Session) (pending : List (String × ℕ)) (nt : ℕ) : Manager :=
  { streams := [("camera1", st)], pending := pending, nextTimer := nt, events := [] }

def stoppedManager : Manager := mkManager stoppedSession [] 3

def startingManager : Manager := mkManager startingSession [] 0

def streamingManager : Manager := mkManager streamingSession [] 0

def wornManager : Manager := mkManager wornSession [] 5

def armedManager : Manager := mkManager armedSession [("camera1", 0)] 1

/-! Supporting lemmas. -/

lemma endlistMarker_eq :
    endlistMarker = ['#', 'E', 'X', 'T', '-', 'X', '-', 'E', 'N', 'D', 'L', 'I', 'S', 'T'] := rfl

/-! ### Lemmas about the playlist transformation -/
lemma length_dropWhile_le (p : Char → Bool) (l : List Char) :
    (l.dropWhile p).length ≤ l.length :=
  (List.dropWhile_sublist p).length_le

lemma stripEndlistAux_congr : ∀ (f₁ f₂ : ℕ) (l : List Char),
    l.length ≤ f₁ → l.length ≤ f₂ → stripEndlistAux f₁ l = stripEndlistAux f₂ l := by
  intro f₁
  induction f₁ with
  | zero =>
    intro f₂ l h₁ _
    have : l = [] := List.length_eq_zero.mp (Nat.le_zero.mp h₁)
    subst this
    cases f₂ <;> rfl
  | succ f ih =>
    intro f₂ l h₁ h₂
    cases l with
    | nil => cases f₂ <;> rfl
    | cons c cs =>
      cases f₂ with
      | zero => simp at h₂
      | succ f' =>
        simp only [stripEndlistAux]
        by_cases h : endlistMarker.isPrefixOf (c :: cs) = true
        · rw [if_pos h, if_pos h]
          apply ih
          · calc (((c :: cs).drop endlistMarker.length).dropWhile Char.isWhitespace).length
              ≤ ((c :: cs).drop endlistMarker.length).length := length_dropWhile_le _ _
            _ ≤ f := by simp [endlistMarker_eq] at *; omega
          · calc (((c :: cs).drop endlistMarker.length).dropWhile Char.isWhitespace).length
              ≤ ((c :: cs).drop endlistMarker.length).length := length_dropWhile_le _ _
            _ ≤ f' := by simp [endlistMarker_eq] at *; omega
        · rw [if_neg h, if_neg h]
          simp only [List.length_cons] at h₁ h₂
          rw [ih f' cs (by omega) (by omega)]

lemma stripEndlist_cons_neg {c : Char} {cs : List Char}
    (h : endlistMarker.isPrefixOf (c :: cs) = false) :
    stripEndlist (c :: cs) = c :: stripEndlist cs := by
  simp only [stripEndlist, List.length_cons, stripEndlistAux, h, Bool.false_eq_true,
    if_false]

lemma stripEndlistAux_marker (f : ℕ) (rest : List Char) :
    stripEndlistAux (f + 1) (endlistMarker ++ rest)
      = stripEndlistAux f (rest.dropWhile Char.isWhitespace) := by
  have hcons : endlistMarker ++ rest
      = '#' :: (['E', 'X', 'T', '-', 'X', '-', 'E', 'N', 'D', 'L', 'I', 'S', 'T'] ++ rest) := by
    rw [endlistMarker_eq]; rfl
  have hpre : endlistMarker.isPrefixOf (endlistMarker ++ rest) = true := by
    simp [ List.isPrefixOf_iff_prefix]
  rw [hcons]
  simp only [stripEndlistAux]
  rw [← hcons, if_pos hpre, List.drop_left]

lemma stripEndlist_marker_prefix (rest : List Char) :
    stripEndlist (endlistMarker ++ rest)
      = stripEndlist (rest.dropWhile Char.isWhitespace) := by
  have h1 : stripEndlist (endlistMarker ++ rest)
      = stripEndlistAux (13 + rest.length + 1) (endlistMarker ++ rest) := by
    apply stripEndlistAux_congr <;> simp [endlistMarker_eq] <;> omega
  rw [h1, stripEndlistAux_marker]
  exact stripEndlistAux_congr (13 + rest.length) (rest.dropWhile Char.isWhitespace).length
    (rest.dropWhile Char.isWhitespace)
    (le_trans (length_dropWhile_le _ _) (by omega)) le_rfl

lemma containsSub_refl (pat : List Char) : containsSub pat pat = true := by
  cases pat with
  | nil => rfl
  | cons c cs => simp [containsSub, List.isPrefixOf_iff_prefix]

lemma prefix_through_newline {M : List Char} (hM : '\n' ∉ M) :
    ∀ (x y : List Char), M <+: x ++ '\n' :: y → M <+: x := by
  induction M with
  | nil => intro x y _; exact List.nil_prefix
  | cons a as ihM =>
    intro x y h
    cases x with
    | nil =>
      exfalso
      rcases h with ⟨u, hu⟩
      simp only [List.nil_append, List.cons_append, List.cons.injEq] at hu
      exact hM (hu.1 ▸ List.mem_cons_self a as)
    | cons b x' =>
      rw [List.cons_append] at h
      rcases List.cons_prefix_cons.mp h with ⟨rfl, h'⟩
      have hM' : '\n' ∉ as := fun hc => hM (List.mem_cons_of_mem a hc)
      exact List.cons_prefix_cons.mpr ⟨rfl, ihM hM' x' y h'⟩

lemma stripEndlist_line_step (l t : List Char)
    (hsub : containsSub endlistMarker l = false) :
    stripEndlist (l ++ '\n' :: t) = l ++ '\n' :: stripEndlist t := by
  induction l with
  | nil =>
    have hpre : endlistMarker.isPrefixOf ('\n' :: t) = false := by
      rw [endlistMarker_eq]
      simp [List.isPrefixOf]
    simpa using stripEndlist_cons_neg hpre
  | cons c cs ih =>
    simp only [containsSub, Bool.or_eq_false_iff] at hsub
    obtain ⟨hpre, hsub'⟩ := hsub
    have hpre2 : endlistMarker.isPrefixOf (c :: (cs ++ '\n' :: t)) = false := by
      by_contra hcon
      rw [Bool.not_eq_false, List.isPrefixOf_iff_prefix] at hcon
      have hnl : '\n' ∉ endlistMarker := by decide
      have : endlistMarker <+: (c :: cs) := by
        have := prefix_through_newline hnl (c :: cs) t (by simpa using hcon)
        exact this
      rw [← List.isPrefixOf_iff_prefix, hpre] at this
      exact absurd this (by simp)
    rw [List.cons_append, stripEndlist_cons_neg hpre2, ih hsub']
    simp

lemma flatLines_dropWhile (ls : List (List Char)) (h : ∀ l ∈ ls, LineOK l) :
    (flatLines ls).dropWhile Char.isWhitespace = flatLines ls := by
  cases ls with
  | nil => rfl
  | cons l ls' =>
    rcases h l (List.mem_cons_self l ls') with ⟨-, h2 | ⟨-, hne, hws⟩⟩
    · subst h2
      rfl
    · rw [flatLines]
      cases l with
      | nil => exact absurd rfl hne
      | cons c cs =>
        simp only [List.headD_cons] at hws
        simp [List.dropWhile_cons, hws]

lemma stripEndlist_flatLines (ls : List (List Char)) (h : ∀ l ∈ ls, LineOK l) :
    stripEndlist (flatLines ls)
      = flatLines (ls.filter (fun l => !(l == endlistMarker))) := by
  induction ls with
  | nil => rfl
  | cons l ls' ih =>
    have htail : ∀ l' ∈ ls', LineOK l' := fun l' hl' => h l' (List.mem_cons_of_mem l hl')
    rcases h l (List.mem_cons_self l ls') with ⟨hnl, h2 | ⟨hsub, -, -⟩⟩
    · subst h2
      rw [flatLines, stripEndlist_marker_prefix ('\n' :: flatLines ls')]
      rw [show ('\n' :: flatLines ls').dropWhile Char.isWhitespace
            = (flatLines ls').dropWhile Char.isWhitespace by
          simp [List.dropWhile_cons]]
      rw [flatLines_dropWhile ls' htail, ih htail]
      simp [List.filter_cons, endlistMarker_eq]
    · rw [flatLines, stripEndlist_line_step l (flatLines ls') hsub, ih htail]
      have hne : (l == endlistMarker) = false := by
        simp only [beq_eq_false_iff_ne, ne_eq]
        intro heq
        rw [heq, containsSub_refl] at hsub
        exact absurd hsub (by simp)
      simp [List.filter_cons, hne, flatLines]

lemma splitOnNl_line (l : List Char) (hnl : '\n' ∉ l) (t : List Char) :
    splitOnNl (l ++ '\n' :: t) = l :: splitOnNl t := by
  induction l with
  | nil => simp [splitOnNl]
  | cons c cs ih =>
    have hc : (c == '\n') = false := by
      simp only [beq_eq_false_iff_ne, ne_eq]
      intro h
      exact hnl (h ▸ List.mem_cons_self c cs)
    have hcs : '\n' ∉ cs := fun h => hnl (List.mem_cons_of_mem c h)
    simp only [List.cons_append, splitOnNl, hc, Bool.false_eq_true, if_false,
      List.append_eq]
    rw [ih hcs]

lemma splitOnNl_flatLines (ls : List (List Char)) (h : ∀ l ∈ ls, '\n' ∉ l) :
    splitOnNl (flatLines ls) = ls ++ [[]] := by
  induction ls with
  | nil => simp [flatLines, splitOnNl]
  | cons l ls ih =>
    rw [flatLines, splitOnNl_line l (h l (List.mem_cons_self l ls)),
      ih (fun l' hl' => h l' (List.mem_cons_of_mem l hl'))]
    rfl

lemma joinNl_append_nil (ls : List (List Char)) :
    joinNl (ls ++ [[]]) = flatLines ls := by
  induction ls with
  | nil => rfl
  | cons l ls ih =>
    cases ls with
    | nil => rfl
    | cons l' ls' =>
      have h1 : joinNl ((l :: l' :: ls') ++ [[]])
          = l ++ '\n' :: joinNl ((l' :: ls') ++ [[]]) := rfl
      rw [h1, ih]; rfl

lemma rewriteLine_nil (cameraId : String) : rewriteLine cameraId [] = [] := rfl

/-! ### Lemmas about the session map and the timer table -/
lemma lookupS_setS_self (l : List (String × Session)) (c : String) (s : Session) :
    lookupS (setS l c s) c = (lookupS l c).map (fun _ => s) := by
  induction l with
  | nil => rfl
  | cons p rest ih =>
    obtain ⟨k, v⟩ := p
    by_cases h : k = c
    · simp [setS, lookupS, h]
    · simp [setS, lookupS, h, ih]

lemma lookupS_setS_ne (l : List (String × Session)) (c c' : String) (s : Session)
    (h : c' ≠ c) : lookupS (setS l c s) c' = lookupS l c' := by
  induction l with
  | nil => rfl
  | cons p rest ih =>
    obtain ⟨k, v⟩ := p
    by_cases hk : k = c
    · subst hk
      simp [setS, lookupS, Ne.symm h, ih]
    · by_cases hk' : k = c'
      · simp [setS, lookupS, hk, hk', h]
      · simp [setS, lookupS, hk, hk', ih]

lemma setS_setS (l : List (String × Session)) (c : String) (s s' : Session) :
    setS (setS l c s) c s' = setS l c s' := by
  induction l with
  | nil => rfl
  | cons p rest ih =>
    obtain ⟨k, v⟩ := p
    by_cases h : k = c <;> simp [setS, h, ih]

lemma timersFor_append (p q : List (String × ℕ)) (c : String) :
    timersFor (p ++ q) c = timersFor p c ++ timersFor q c := by
  induction p with
  | nil => rfl
  | cons e rest ih =>
    obtain ⟨k, v⟩ := e
    by_cases h : k = c <;> simp [timersFor, h, ih]

lemma timersFor_single_self (c : String) (t : ℕ) : timersFor [(c, t)] c = [t] := by
  simp [timersFor]

lemma timersFor_single_ne (c c' : String) (t : ℕ) (h : c' ≠ c) :
    timersFor [(c, t)] c' = [] := by
  simp [timersFor, Ne.symm h]

lemma timersFor_filter_self (p : List (String × ℕ)) (c : String) (t : ℕ) :
    timersFor (p.filter (fun q => !(q.1 == c && q.2 == t))) c
      = (timersFor p c).filter (fun x => !(x == t)) := by
  induction p with
  | nil => rfl
  | cons q rest ih =>
    obtain ⟨k, v⟩ := q
    rw [List.filter_cons]
    by_cases hk : k = c
    · by_cases hv : v = t
      · rw [if_neg (by simp [hk, hv])]
        rw [ih]
        have h1 : timersFor ((k, v) :: rest) c = v :: timersFor rest c := by
          simp [timersFor, hk]
        rw [h1, List.filter_cons, if_neg (by simp [hv])]
      · rw [if_pos (by simp [hv])]
        have h1 : timersFor ((k, v) :: rest) c = v :: timersFor rest c := by
          simp [timersFor, hk]
        have h2 : timersFor ((k, v) :: List.filter (fun q => !(q.1 == c && q.2 == t)) rest) c
            = v :: timersFor (List.filter (fun q => !(q.1 == c && q.2 == t)) rest) c := by
          simp [timersFor, hk]
        rw [h2, ih, h1, List.filter_cons, if_pos (by simp [hv])]
    · rw [if_pos (by simp [hk])]
      have h1 : timersFor ((k, v) :: rest) c = timersFor rest c := by
        simp [timersFor, hk]
      have h2 : timersFor ((k, v) :: List.filter (fun q => !(q.1 == c && q.2 == t)) rest) c
          = timersFor (List.filter (fun q => !(q.1 == c && q.2 == t)) rest) c := by
        simp [timersFor, hk]
      rw [h2, ih, h1]

lemma timersFor_filter_ne (p : List (String × ℕ)) (c c' : String) (t : ℕ)
    (h : c' ≠ c) :
    timersFor (p.filter (fun q => !(q.1 == c && q.2 == t))) c' = timersFor p c' := by
  induction p with
  | nil => rfl
  | cons q rest ih =>
    obtain ⟨k, v⟩ := q
    rw [List.filter_cons]
    by_cases hg : (!(k == c && v == t)) = true
    · rw [if_pos hg]
      by_cases hk : k = c'
      · simp only [timersFor, if_pos hk, ih]
      · simp only [timersFor, if_neg hk, ih]
    · rw [if_neg hg]
      have hk : k = c := by
        by_contra hkc
        simp [hkc] at hg
      subst hk
      simp only [timersFor, if_neg (Ne.symm h), ih]

lemma sessionTimers_setS_self (l : List (String × Session)) (c : String)
    (s st : Session) (h : lookupS l c = some st) :
    sessionTimers (setS l c s) c = s.reconnectTimer.toList := by
  unfold sessionTimers
  rw [lookupS_setS_self, h]
  rfl

lemma sessionTimers_setS_ne (l : List (String × Session)) (c c' : String)
    (s : Session) (h : c' ≠ c) :
    sessionTimers (setS l c s) c' = sessionTimers l c' := by
  unfold sessionTimers
  rw [lookupS_setS_ne l c c' s h]

lemma updateStatus_streams (mgr : Manager) (c status msg : String) :
    (updateStatus mgr c status msg).streams = mgr.streams := by
  unfold updateStatus
  split <;> rfl

lemma updateStatus_pending (mgr : Manager) (c status msg : String) :
    (updateStatus mgr c status msg).pending = mgr.pending := by
  unfold updateStatus
  split <;> rfl

lemma updateStatus_nextTimer (mgr : Manager) (c status msg : String) :
    (updateStatus mgr c status msg).nextTimer = mgr.nextTimer := by
  unfold updateStatus
  split <;> rfl

lemma startFFmpeg_pending (mgr : Manager) (c : String) :
    (startFFmpeg mgr c).pending = mgr.pending := by
  unfold startFFmpeg ensureHlsDirectory
  split <;> rfl

lemma startFFmpeg_nextTimer (mgr : Manager) (c : String) :
    (startFFmpeg mgr c).nextTimer = mgr.nextTimer := by
  unfold startFFmpeg ensureHlsDirectory
  split <;> rfl

lemma startFFmpeg_streams_none (mgr : Manager) (c : String)
    (h : lookupS mgr.streams c = none) : (startFFmpeg mgr c).streams = mgr.streams := by
  unfold startFFmpeg ensureHlsDirectory
  rw [h]

lemma startFFmpeg_streams_some (mgr : Manager) (c : String) (st : Session)
    (h : lookupS mgr.streams c = some st) :
    (startFFmpeg mgr c).streams = setS mgr.streams c { st with ffmpegProcess := true } := by
  unfold startFFmpeg ensureHlsDirectory
  rw [h]

lemma timerInv_startFFmpeg (mgr : Manager) (c : String) (h : TimerInv mgr) :
    TimerInv (startFFmpeg mgr c) := by
  intro c'
  rw [startFFmpeg_pending]
  cases hl : lookupS mgr.streams c with
  | none => rw [startFFmpeg_streams_none mgr c hl]; exact h c'
  | some st =>
    rw [startFFmpeg_streams_some mgr c st hl]
    by_cases hc : c' = c
    · subst hc
      rw [sessionTimers_setS_self _ _ _ st hl]
      have := h c'
      rw [sessionTimers, hl] at this
      exact this
    · rw [sessionTimers_setS_ne _ _ _ _ hc]
      exact h c'

lemma sessionTimers_eq_of_lookup {streams : List (String × Session)} {c : String}
    {st : Session} (h : lookupS streams c = some st) :
    sessionTimers streams c = st.reconnectTimer.toList := by
  unfold sessionTimers
  rw [h]

lemma sessionTimers_eq_of_none {streams : List (String × Session)} {c : String}
    (h : lookupS streams c = none) : sessionTimers streams c = [] := by
  unfold sessionTimers
  rw [h]

lemma timerInv_ensureHlsDirectory (mgr : Manager) (c : String) (h : TimerInv mgr) :
    TimerInv (ensureHlsDirectory mgr c) := fun c' => h c'

lemma timerInv_updateStatus (mgr : Manager) (c status msg : String) (h : TimerInv mgr) :
    TimerInv (updateStatus mgr c status msg) := by
  intro c'
  rw [updateStatus_pending, updateStatus_streams]
  exact h c'

lemma timerInv_scheduleReconnect (mgr : Manager) (c : String) (h : TimerInv mgr) :
    TimerInv (scheduleReconnect mgr c) := by
  unfold scheduleReconnect
  split
  · exact h
  next st heq =>
    split
    · exact h
    next ht =>
      intro c'
      by_cases hc : c' = c
      · subst hc
        show timersFor (mgr.pending ++ [(c', mgr.nextTimer)]) c'
          = sessionTimers (setS mgr.streams c' { st with reconnectTimer := some mgr.nextTimer }) c'
        rw [timersFor_append, timersFor_single_self,
          (h c').trans (sessionTimers_eq_of_lookup heq), ht,
          sessionTimers_setS_self _ _ _ st heq]
        rfl
      · show timersFor (mgr.pending ++ [(c, mgr.nextTimer)]) c'
          = sessionTimers (setS mgr.streams c { st with reconnectTimer := some mgr.nextTimer }) c'
        rw [timersFor_append, timersFor_single_ne _ _ _ hc, List.append_nil,
          sessionTimers_setS_ne _ _ _ _ hc]
        exact h c'

lemma timerInv_stopStream (mgr : Manager) (cameraId : Option String) (h : TimerInv mgr) :
    TimerInv (stopStream mgr cameraId) := by
  unfold stopStream
  split
  · exact h
  next t hres =>
    split
    · exact h
    next st heq =>
      apply timerInv_updateStatus
      intro c'
      show timersFor (match st.reconnectTimer with
            | some tid => mgr.pending.filter (fun p => !(p.1 == t && p.2 == tid))
            | none => mgr.pending) c'
        = sessionTimers (setS mgr.streams t
            { st with reconnectTimer := none, ffmpegProcess := false,
                      isStreaming := false, reconnectAttempts := 0 }) c'
      by_cases hc : c' = t
      · subst hc
        rw [sessionTimers_setS_self _ _ _ st heq]
        cases ht : st.reconnectTimer with
        | some tid =>
          show timersFor (mgr.pending.filter (fun p => !(p.1 == c' && p.2 == tid))) c' = []
          rw [timersFor_filter_self, (h c').trans (sessionTimers_eq_of_lookup heq), ht]
          simp
        | none =>
          show timersFor mgr.pending c' = []
          rw [(h c').trans (sessionTimers_eq_of_lookup heq), ht]
          rfl
      · rw [sessionTimers_setS_ne _ _ _ _ hc]
        cases ht : st.reconnectTimer with
        | some tid =>
          show timersFor (mgr.pending.filter (fun p => !(p.1 == t && p.2 == tid))) c'
            = sessionTimers mgr.streams c'
          rw [timersFor_filter_ne _ _ _ _ hc]
          exact h c'
        | none => exact h c'

lemma mem_timersFor {p : List (String × ℕ)} {c : String} {t : ℕ}
    (h : (c, t) ∈ p) : t ∈ timersFor p c := by
  induction p with
  | nil => cases h
  | cons e rest ih =>
    obtain ⟨k, v⟩ := e
    rcases List.mem_cons.mp h with heq | hmem
    · injection heq with h1 h2
      simp [timersFor, h1.symm, h2]
    · by_cases hk : k = c
      · simp [timersFor, hk, ih hmem]
      · simp [timersFor, hk]
        exact ih hmem

lemma timerInv_startStream (mgr : Manager) (cameraId : Option String) (h : TimerInv mgr) :
    TimerInv (startStream mgr cameraId) := by
  unfold startStream
  split
  · exact h
  next t hres =>
    split
    · exact h
    next st heq =>
      split
      · exact h
      · exact timerInv_startFFmpeg _ _ (timerInv_ensureHlsDirectory _ _ h)

lemma timerInv_fireTimer (mgr : Manager) (c : String) (tid : ℕ) (h : TimerInv mgr) :
    TimerInv (fireTimer mgr c tid) := by
  unfold fireTimer
  by_cases hmem : (c, tid) ∈ mgr.pending
  · rw [if_pos hmem]
    have htid : tid ∈ timersFor mgr.pending c := mem_timersFor hmem
    cases hl : lookupS mgr.streams c with
    | none =>
      rw [(h c).trans (sessionTimers_eq_of_none hl)] at htid
      cases htid
    | some st =>
      cases ht : st.reconnectTimer with
      | none =>
        rw [(h c).trans (sessionTimers_eq_of_lookup hl), ht] at htid
        cases htid
      | some t0 =>
        have heq : tid = t0 := by
          rw [(h c).trans (sessionTimers_eq_of_lookup hl), ht] at htid
          simpa using htid
        subst heq
        unfold reconnectCallback
        rw [show ({ mgr with
              pending := mgr.pending.filter (fun p => !(p.1 == c && p.2 == tid)) }
                : Manager).streams = mgr.streams from rfl, hl]
        apply timerInv_startFFmpeg
        apply timerInv_updateStatus
        intro c'
        by_cases hcc : c' = c
        · subst hcc
          show timersFor (mgr.pending.filter (fun p => !(p.1 == c' && p.2 == tid))) c'
            = sessionTimers (setS mgr.streams c' _) c'
          rw [timersFor_filter_self, sessionTimers_setS_self _ _ _ st hl,
            (h c').trans (sessionTimers_eq_of_lookup hl), ht]
          simp
        · show timersFor (mgr.pending.filter (fun p => !(p.1 == c && p.2 == tid))) c'
            = sessionTimers (setS mgr.streams c _) c'
          rw [timersFor_filter_ne _ _ _ _ hcc, sessionTimers_setS_ne _ _ _ _ hcc]
          exact h c'
  · rw [if_neg hmem]
    exact h

lemma updateStatus_events_some {mgr : Manager} {c : String} {st : Session}
    (h : lookupS mgr.streams c = some st) (status msg : String) :
    (updateStatus mgr c status msg).events = mgr.events ++ [.publish
      { cameraId := c, cameraName := st.camera.name, status := status, message := msg,
        isStreaming := st.isStreaming, reconnectAttempts := st.reconnectAttempts }] := by
  unfold updateStatus
  rw [h]

lemma resolveTarget_some {mgr : Manager} {c : String} (hc : c ≠ "") :
    resolveTarget mgr (some c) = some c := by
  show (if c = "" then firstCameraId mgr else some c) = some c
  rw [if_neg hc]

lemma startFFmpeg_eq {mgr : Manager} {c : String} {st : Session}
    (h : lookupS mgr.streams c = some st) :
    startFFmpeg mgr c =
      { mgr with
        streams := setS mgr.streams c { st with ffmpegProcess := true },
        events := mgr.events ++ [.ensureDir c] ++ [.launch c] } := by
  simp only [startFFmpeg, ensureHlsDirectory, h]

lemma stopStream_eq {mgr : Manager} {c : String} {st : Session} (hc : c ≠ "")
    (h : lookupS mgr.streams c = some st) :
    stopStream mgr (some c) = updateStatus
      { mgr with
        pending :=
          match st.reconnectTimer with
          | some tid => mgr.pending.filter (fun p => !(p.1 == c && p.2 == tid))
          | none => mgr.pending,
        events := mgr.events ++ (if st.ffmpegProcess then [.kill c] else []),
        streams := setS mgr.streams c
          { st with reconnectTimer := none, ffmpegProcess := false,
                    isStreaming := false, reconnectAttempts := 0 } }
      c "stopped" "" := by
  simp only [stopStream, resolveTarget_some hc, h]

lemma timerInv_armedManager : TimerInv armedManager := by
  intro c
  by_cases h : "camera1" = c
  · subst h
    rfl
  · show timersFor [("camera1", 0)] c = sessionTimers [("camera1", armedSession)] c
    unfold timersFor sessionTimers lookupS
    rw [if_neg h]
    simp only [if_neg h]
    rfl

lemma scheduleReconnect_eq {mgr : Manager} {c : String} {st : Session}
    (h : lookupS mgr.streams c = some st) (ht : st.reconnectTimer = none) :
    scheduleReconnect mgr c =
      { mgr with
        streams := setS mgr.streams c { st with reconnectTimer := some mgr.nextTimer },
        pending := mgr.pending ++ [(c, mgr.nextTimer)],
        nextTimer := mgr.nextTimer + 1 } := by
  simp only [scheduleReconnect, h, ht]

/-! Claim theorems. -/

/-- C1 (confirmed): on the ffmpeg `start` event — the confirmation that the process has begun producing output — the session transitions to streaming and its reconnect-attempt counter resets to zero regardless of its previous value, and a `"streaming"` status record with attempt count 0 is published. -/
theorem onStart_spec (mgr : Manager) (c : String) (st : Session)
    (h : lookupS mgr.streams c = some st) :
    lookupS (onStart mgr c).streams c
      = some { st with isStreaming := true, reconnectAttempts := 0 } ∧
    (onStart mgr c).events = mgr.events ++ [.publish
      { cameraId := c, cameraName := st.camera.name, status := "streaming",
        message := "", isStreaming := true, reconnectAttempts := 0 }] := by
  have hdef : onStart mgr c = updateStatus
      { mgr with
        streams := setS mgr.streams c { st with isStreaming := true, reconnectAttempts := 0 } }
      c "streaming" "" := by
    simp only [onStart, h]
  have hlook : lookupS (setS mgr.streams c
      { st with isStreaming := true, reconnectAttempts := 0 }) c
      = some { st with isStreaming := true, reconnectAttempts := 0 } := by
    rw [lookupS_setS_self, h]
    rfl
  constructor
  · rw [hdef, updateStatus_streams]
    exact hlook
  · rw [hdef, updateStatus_events_some hlook]

/-- Witness for the start-event theorem at a session whose counter had grown to 1000000. -/
theorem onStart_spec_witness :
    lookupS (onStart wornManager "camera1").streams "camera1"
      = some { wornSession with isStreaming := true, reconnectAttempts := 0 } ∧
    (onStart wornManager "camera1").events = wornManager.events ++ [.publish
      { cameraId := "camera1", cameraName := "Camera 1", status := "streaming",
        message := "", isStreaming := true, reconnectAttempts := 0 }] :=
  onStart_spec wornManager "camera1" wornSession rfl

/-- C2 (confirmed): the reconnect delay equals the floor of `min (1000 * (3/2) ^ n) 30000`, is monotonically non-decreasing in the attempt count, still lies below the cap at attempt 8, and equals 30000 for every attempt count from the crossover point 9 upwards. -/
theorem backoff_spec :
    (∀ n : ℕ, calculateReconnectDelay n = ⌊min ((1000 : ℚ) * (3 / 2) ^ n) 30000⌋) ∧
    (∀ m n : ℕ, m ≤ n → calculateReconnectDelay m ≤ calculateReconnectDelay n) ∧
    calculateReconnectDelay 8 < 30000 ∧
    (∀ n : ℕ, 9 ≤ n → calculateReconnectDelay n = 30000) := by
  refine ⟨fun n => rfl, ?_, ?_, ?_⟩
  · intro m n h
    apply Int.floor_le_floor
    apply min_le_min _ le_rfl
    apply mul_le_mul_of_nonneg_left _ (by norm_num [initialDelay])
    exact pow_le_pow_right₀ (by norm_num [backoffMultiplier]) h
  · norm_num [calculateReconnectDelay, initialDelay, maxDelay, backoffMultiplier]
  · intro n hn
    unfold calculateReconnectDelay initialDelay maxDelay backoffMultiplier
    have h1 : (30000 : ℚ) ≤ 1000 * (3 / 2) ^ n := by
      calc (30000 : ℚ) ≤ 1000 * (3 / 2) ^ 9 := by norm_num
      _ ≤ 1000 * (3 / 2) ^ n := by
          apply mul_le_mul_of_nonneg_left _ (by norm_num)
          exact pow_le_pow_right₀ (by norm_num) hn
    rw [min_eq_right h1]
    norm_num

/-- Witness for the backoff theorem at concrete attempt counts. -/
theorem backoff_spec_witness :
    calculateReconnectDelay 3 ≤ calculateReconnectDelay 7 ∧
    calculateReconnectDelay 12 = 30000 :=
  ⟨backoff_spec.2.1 3 7 (by norm_num), backoff_spec.2.2.2 12 (by norm_num)⟩

/-- C3 (confirmed): the single-pending-timer invariant — the runtime timer table holds, per camera, exactly the (at most one) handle stored in that camera's session — is preserved by `startStream`, `stopStream`, `_scheduleReconnect` and timer firing; a schedule request while a timer is already stored is ignored; and under the invariant at most one timer is pending per camera at any instant. -/
theorem single_pending_timer :
    (∀ mgr cameraId, TimerInv mgr → TimerInv (startStream mgr cameraId)) ∧
    (∀ mgr cameraId, TimerInv mgr → TimerInv (stopStream mgr cameraId)) ∧
    (∀ mgr c, TimerInv mgr → TimerInv (scheduleReconnect mgr c)) ∧
    (∀ mgr c tid, TimerInv mgr → TimerInv (fireTimer mgr c tid)) ∧
    (∀ mgr c st tid, lookupS mgr.streams c = some st → st.reconnectTimer = some tid →
      scheduleReconnect mgr c = mgr) ∧
    (∀ mgr c, TimerInv mgr → (timersFor mgr.pending c).length ≤ 1) := by
  refine ⟨timerInv_startStream, timerInv_stopStream, timerInv_scheduleReconnect,
    timerInv_fireTimer, ?_, ?_⟩
  · intro mgr c st tid h ht
    unfold scheduleReconnect
    split
    · rfl
    next st' heq =>
      rw [h] at heq
      injection heq with heq'
      subst heq'
      split
      · rfl
      next ht' => rw [ht] at ht'; cases ht'
  · intro mgr c h
    rw [h c]
    cases hl : lookupS mgr.streams c with
    | none => rw [sessionTimers_eq_of_none hl]; simp
    | some st =>
      rw [sessionTimers_eq_of_lookup hl]
      cases st.reconnectTimer <;> simp [Option.toList]

/-- Witness for the timer invariant at a concrete manager with one armed timer. -/
theorem single_pending_timer_witness :
    scheduleReconnect armedManager "camera1" = armedManager ∧
    (timersFor armedManager.pending "camera1").length ≤ 1 :=
  ⟨single_pending_timer.2.2.2.2.1 armedManager "camera1" armedSession 0 rfl rfl,
   single_pending_timer.2.2.2.2.2 armedManager "camera1" timerInv_armedManager⟩

/-- C4 counterexample: the reconnect-timer callback performs no state check — run against a stopped session it increments the counter and launches the process again, refuting the claim that the fired timer's callback checks current state and aborts the restart. -/
theorem timer_callback_no_state_check :
    lookupS stoppedManager.streams "camera1" = some stoppedSession ∧
    stoppedSession.isStreaming = false ∧
    stoppedSession.ffmpegProcess = false ∧
    (lookupS (reconnectCallback stoppedManager "camera1").streams "camera1").map
      (fun st => st.ffmpegProcess) = some true ∧
    Ev.launch "camera1" ∈ (reconnectCallback stoppedManager "camera1").events := by
  refine ⟨rfl, rfl, rfl, by decide, by decide⟩

/-- C4 (corrected): `stopStream` cancels the pending reconnect timer (`clearTimeout`), so afterwards no timer for that camera remains in the runtime table and firing any previously-scheduled timer is a no-op — the external process is never restarted after stop. The race avoidance comes from cancellation, not from a state check inside the callback. -/
theorem stop_prevents_timer_restart (mgr : Manager) (c : String) (st : Session)
    (hInv : TimerInv mgr) (hc : c ≠ "") (h : lookupS mgr.streams c = some st) :
    timersFor (stopStream mgr (some c)).pending c = [] ∧
    (∀ tid, fireTimer (stopStream mgr (some c)) c tid = stopStream mgr (some c)) := by
  have hpend : timersFor (stopStream mgr (some c)).pending c = [] := by
    have hInv' := timerInv_stopStream mgr (some c) hInv
    rw [hInv' c, stopStream_eq hc h, updateStatus_streams]
    rw [sessionTimers_eq_of_lookup (by rw [lookupS_setS_self, h]; rfl)]
    rfl
  refine ⟨hpend, fun tid => ?_⟩
  have hnotmem : (c, tid) ∉ (stopStream mgr (some c)).pending := by
    intro hmem
    have h2 := mem_timersFor hmem
    rw [hpend] at h2
    cases h2
  unfold fireTimer
  rw [if_neg hnotmem]

/-- Witness for stop-cancels-timer at a concrete manager with an armed timer. -/
theorem stop_prevents_timer_restart_witness :
    timersFor (stopStream armedManager (some "camera1")).pending "camera1" = [] ∧
    fireTimer (stopStream armedManager (some "camera1")) "camera1" 0
      = stopStream armedManager (some "camera1") :=
  ⟨(stop_prevents_timer_restart armedManager "camera1" armedSession
      timerInv_armedManager (by decide) rfl).1,
   (stop_prevents_timer_restart armedManager "camera1" armedSession
      timerInv_armedManager (by decide) rfl).2 0⟩

/-- C5 (confirmed): `stopStream` (a total function — no error path) leaves the session stopped with no process handle, no stored timer handle and attempt counter zero, and a second consecutive stop leaves streams, pending timers and the timer counter unchanged, publishing the same `"stopped"` record once more. -/
theorem stop_idempotent (mgr : Manager) (c : String) (st : Session) (hc : c ≠ "")
    (h : lookupS mgr.streams c = some st) :
    lookupS (stopStream mgr (some c)).streams c
      = some { st with reconnectTimer := none, ffmpegProcess := false,
                       isStreaming := false, reconnectAttempts := 0 } ∧
    (stopStream (stopStream mgr (some c)) (some c)).streams
      = (stopStream mgr (some c)).streams ∧
    (stopStream (stopStream mgr (some c)) (some c)).pending
      = (stopStream mgr (some c)).pending ∧
    (stopStream (stopStream mgr (some c)) (some c)).nextTimer
      = (stopStream mgr (some c)).nextTimer ∧
    (stopStream (stopStream mgr (some c)) (some c)).events
      = (stopStream mgr (some c)).events ++ [.publish
        { cameraId := c, cameraName := st.camera.name, status := "stopped",
          message := "", isStreaming := false, reconnectAttempts := 0 }] := by
  have h1 : lookupS (stopStream mgr (some c)).streams c
      = some { st with reconnectTimer := none, ffmpegProcess := false,
                       isStreaming := false, reconnectAttempts := 0 } := by
    rw [stopStream_eq hc h, updateStatus_streams]
    show lookupS (setS mgr.streams c _) c = _
    rw [lookupS_setS_self, h]
    rfl
  have h2 := stopStream_eq hc h1
  refine ⟨h1, ?_, ?_, ?_, ?_⟩
  · rw [h2, updateStatus_streams, stopStream_eq hc h, updateStatus_streams, setS_setS]
  · rw [h2, updateStatus_pending]
  · rw [h2, updateStatus_nextTimer]
  · have hlook2 : lookupS (setS (stopStream mgr (some c)).streams c
          { st with reconnectTimer := none, ffmpegProcess := false,
                    isStreaming := false, reconnectAttempts := 0 }) c
        = some { st with reconnectTimer := none, ffmpegProcess := false,
                         isStreaming := false, reconnectAttempts := 0 } := by
      rw [lookupS_setS_self, h1]
      rfl
    rw [h2, updateStatus_events_some hlook2]
    simp

/-- Witness for stop idempotence on a concrete streaming manager. -/
theorem stop_idempotent_witness :
    lookupS (stopStream streamingManager (some "camera1")).streams "camera1"
      = some { streamingSession with
               reconnectTimer := none, ffmpegProcess := false,
               isStreaming := false, reconnectAttempts := 0 } ∧
    (stopStream (stopStream streamingManager (some "camera1")) (some "camera1")).streams
      = (stopStream streamingManager (some "camera1")).streams ∧
    (stopStream (stopStream streamingManager (some "camera1")) (some "camera1")).events
      = (stopStream streamingManager (some "camera1")).events ++ [.publish
        { cameraId := "camera1", cameraName := "Camera 1", status := "stopped",
          message := "", isStreaming := false, reconnectAttempts := 0 }] :=
  ⟨(stop_idempotent streamingManager "camera1" streamingSession (by decide) rfl).1,
   (stop_idempotent streamingManager "camera1" streamingSession (by decide) rfl).2.1,
   (stop_idempotent streamingManager "camera1" streamingSession (by decide) rfl).2.2.2.2⟩

/-- C6 counterexample: with a session in the Starting window (process handle present, streaming not yet confirmed) `startStream` is not a no-op — it runs the directory manager twice and launches the external process a second time. -/
theorem start_during_starting_counterexample :
    (lookupS startingManager.streams "camera1").map
      (fun st => (st.isStreaming, st.ffmpegProcess)) = some (false, true) ∧
    (startStream startingManager (some "camera1")).events
      = [.ensureDir "camera1", .ensureDir "camera1", .launch "camera1"] ∧
    startStream startingManager (some "camera1") ≠ startingManager := by
  refine ⟨rfl, by decide, by decide⟩

/-- C6 (corrected): `startStream` is a no-op exactly when the session's `isStreaming` flag is set (state Streaming); otherwise — including the Starting window — it invokes the directory manager (twice, once directly and once inside `_startFFmpeg`) and launches the external process. -/
theorem startStream_spec (mgr : Manager) (c : String) (st : Session) (hc : c ≠ "")
    (h : lookupS mgr.streams c = some st) :
    (st.isStreaming = true → startStream mgr (some c) = mgr) ∧
    (st.isStreaming = false →
      (startStream mgr (some c)).events
        = mgr.events ++ [.ensureDir c] ++ [.ensureDir c] ++ [.launch c] ∧
      lookupS (startStream mgr (some c)).streams c = some { st with ffmpegProcess := true } ∧
      (startStream mgr (some c)).pending = mgr.pending ∧
      (startStream mgr (some c)).nextTimer = mgr.nextTimer) := by
  constructor
  · intro hs
    simp only [startStream, resolveTarget_some hc, h, hs, if_true]
  · intro hs
    have hstart : startStream mgr (some c) = startFFmpeg (ensureHlsDirectory mgr c) c := by
      simp only [startStream, resolveTarget_some hc, h, hs, Bool.false_eq_true, if_false]
    have hlook2 : lookupS (ensureHlsDirectory mgr c).streams c = some st := h
    rw [hstart, startFFmpeg_eq hlook2]
    refine ⟨rfl, ?_, rfl, rfl⟩
    show lookupS (setS (ensureHlsDirectory mgr c).streams c _) c = _
    rw [lookupS_setS_self, hlook2]
    rfl

/-- Witness for the start theorem: no-op on a streaming session, launch on a stopped one. -/
theorem startStream_spec_witness :
    startStream streamingManager (some "camera1") = streamingManager ∧
    (startStream stoppedManager (some "camera1")).events
      = stoppedManager.events ++ [.ensureDir "camera1"] ++ [.ensureDir "camera1"]
        ++ [.launch "camera1"] :=
  ⟨(startStream_spec streamingManager "camera1" streamingSession (by decide) rfl).1 rfl,
   ((startStream_spec stoppedManager "camera1" stoppedSession (by decide) rfl).2 rfl).1⟩

/-- C7 (confirmed): while streaming, a failure classified as a decoding anomaly leaves the manager unchanged (no handle clear, no reconnect); any other failure clears the flag and handle, publishes `"error"` with the message and arms the backoff scheduler; a clean process end receives the identical treatment — equal streams, timer table and timer counter — differing only in the published `"ended"` record. -/
theorem onError_onEnd_spec (mgr : Manager) (c : String) (st : Session) (msg : String)
    (h : lookupS mgr.streams c = some st) (hstream : st.isStreaming = true)
    (htimer : st.reconnectTimer = none) :
    (isDecodingError msg = true → onError mgr c msg = mgr) ∧
    (isDecodingError msg = false →
      (onError mgr c msg).streams = (onEnd mgr c).streams ∧
      (onError mgr c msg).pending = (onEnd mgr c).pending ∧
      (onError mgr c msg).nextTimer = (onEnd mgr c).nextTimer ∧
      lookupS (onError mgr c msg).streams c
        = some { st with isStreaming := false, ffmpegProcess := false,
                         reconnectTimer := some mgr.nextTimer } ∧
      (onError mgr c msg).pending = mgr.pending ++ [(c, mgr.nextTimer)] ∧
      (onError mgr c msg).events = mgr.events ++ [.publish
        { cameraId := c, cameraName := st.camera.name, status := "error", message := msg,
          isStreaming := false, reconnectAttempts := st.reconnectAttempts }] ∧
      (onEnd mgr c).events = mgr.events ++ [.publish
        { cameraId := c, cameraName := st.camera.name, status := "ended", message := "",
          isStreaming := false, reconnectAttempts := st.reconnectAttempts }]) := by
  constructor
  · intro hdec
    simp only [onError, h, hdec, hstream, Bool.and_self, if_true]
  · intro hdec
    have herr : onError mgr c msg = scheduleReconnect
        (updateStatus
          { mgr with
            streams := setS mgr.streams c { st with isStreaming := false, ffmpegProcess := false } }
          c "error" msg) c := by
      simp only [onError, h, hdec, Bool.false_and, Bool.false_eq_true, if_false]
    have hend : onEnd mgr c = scheduleReconnect
        (updateStatus
          { mgr with
            streams := setS mgr.streams c { st with isStreaming := false, ffmpegProcess := false } }
          c "ended" "") c := by
      simp only [onEnd, h]
    have hlookM : ∀ status m : String, lookupS (updateStatus
        { mgr with
          streams := setS mgr.streams c { st with isStreaming := false, ffmpegProcess := false } }
        c status m).streams c
        = some { st with isStreaming := false, ffmpegProcess := false } := by
      intro status m
      rw [updateStatus_streams]
      show lookupS (setS mgr.streams c _) c = _
      rw [lookupS_setS_self, h]
      rfl
    have hlookBase : lookupS (setS mgr.streams c
        { st with isStreaming := false, ffmpegProcess := false }) c
        = some { st with isStreaming := false, ffmpegProcess := false } := by
      rw [lookupS_setS_self, h]
      rfl
    refine ⟨?_, ?_, ?_, ?_, ?_, ?_, ?_⟩
    · rw [herr, hend, scheduleReconnect_eq (hlookM "error" msg) htimer, scheduleReconnect_eq (hlookM "ended" "") htimer]
      simp only [updateStatus_streams, updateStatus_nextTimer]
    · rw [herr, hend, scheduleReconnect_eq (hlookM "error" msg) htimer, scheduleReconnect_eq (hlookM "ended" "") htimer]
      simp only [updateStatus_pending, updateStatus_nextTimer]
    · rw [herr, hend, scheduleReconnect_eq (hlookM "error" msg) htimer, scheduleReconnect_eq (hlookM "ended" "") htimer]
      simp only [updateStatus_nextTimer]
    · rw [herr, scheduleReconnect_eq (hlookM "error" msg) htimer]
      show lookupS (setS _ c _) c = _
      rw [updateStatus_streams, setS_setS, lookupS_setS_self, h, updateStatus_nextTimer]
      rfl
    · rw [herr, scheduleReconnect_eq (hlookM "error" msg) htimer]
      show (updateStatus _ c "error" msg).pending ++ [(c, (updateStatus _ c "error" msg).nextTimer)] = _
      rw [updateStatus_pending, updateStatus_nextTimer]
    · rw [herr, scheduleReconnect_eq (hlookM "error" msg) htimer]
      show (updateStatus _ c "error" msg).events = _
      rw [updateStatus_events_some hlookBase]
    · rw [hend, scheduleReconnect_eq (hlookM "ended" "") htimer]
      show (updateStatus _ c "ended" "").events = _
      rw [updateStatus_events_some hlookBase]

/-- Witness for the failure-handling theorem on a concrete streaming manager. -/
theorem onError_onEnd_spec_witness :
    onError streamingManager "camera1" "error while decoding MB 3 4" = streamingManager ∧
    (onError streamingManager "camera1" "Connection refused").streams
      = (onEnd streamingManager "camera1").streams ∧
    (onError streamingManager "camera1" "Connection refused").pending
      = streamingManager.pending ++ [("camera1", streamingManager.nextTimer)] :=
  ⟨(onError_onEnd_spec streamingManager "camera1" streamingSession
      "error while decoding MB 3 4" rfl rfl rfl).1 (by decide),
   ((onError_onEnd_spec streamingManager "camera1" streamingSession
      "Connection refused" rfl rfl rfl).2 (by decide)).1,
   ((onError_onEnd_spec streamingManager "camera1" streamingSession
      "Connection refused" rfl rfl rfl).2 (by decide)).2.2.2.2.1⟩

/-- C8 (confirmed): when the playlist file is missing or unreadable the endpoint still answers status 200 with the streaming-manifest content type and a well-formed zero-segment manifest body containing the fixed header and a target-duration directive. -/
theorem playlist_missing_or_error_wellformed (cameraId : String) :
    ((renderPlaylist cameraId .missing).status = 200 ∧
     (renderPlaylist cameraId .missing).contentType = "application/vnd.apple.mpegurl" ∧
     isWellFormedEmptyManifest (renderPlaylist cameraId .missing).body = true) ∧
    ((renderPlaylist cameraId .readError).status = 200 ∧
     (renderPlaylist cameraId .readError).contentType = "application/vnd.apple.mpegurl" ∧
     isWellFormedEmptyManifest (renderPlaylist cameraId .readError).body = true) := by
  refine ⟨⟨rfl, rfl, ?_⟩, ⟨rfl, rfl, ?_⟩⟩
  · show isWellFormedEmptyManifest emptyPlaylistStarting = true
    decide
  · show isWellFormedEmptyManifest emptyPlaylistError = true
    decide

/-- C9 counterexample: the claim asks both that every `#EXT-X-ENDLIST` marker be stripped and that every directive line (line starting with `#`) stay byte-identical; a manifest containing the terminator line — itself a directive line — refutes the latter: the line is removed from the output. -/
theorem playlist_endlist_directive_counterexample :
    "#EXT-X-ENDLIST".toList ∈ splitOnNl ("#EXTM3U\n#EXT-X-ENDLIST\n").toList ∧
    rewritePlaylist "cam1" "#EXTM3U\n#EXT-X-ENDLIST\n" = "#EXTM3U\n" ∧
    "#EXT-X-ENDLIST".toList ∉
      splitOnNl (rewritePlaylist "cam1" "#EXTM3U\n#EXT-X-ENDLIST\n").toList := by
  refine ⟨by decide, ?_, by decide⟩
  decide

/-- C9 (corrected): for a manifest made of newline-terminated lines in which the terminator marker occurs only as a complete line and every other line is nonempty, free of the marker and not starting with whitespace, the rendering removes exactly the terminator lines, rewrites each bare segment-filename line to `/hls/<cameraId>/<filename>` (containing the camera id and the original name), and leaves every other line — in particular every other directive line — byte-identical. -/
theorem playlist_rewrite_spec (cameraId : String) (ls : List (List Char))
    (h : ∀ l ∈ ls, LineOK l) :
    rewritePlaylistChars cameraId (flatLines ls)
      = flatLines ((ls.filter (fun l => !(l == endlistMarker))).map (rewriteLine cameraId)) ∧
    (∀ l, isSegmentLine l = true →
      rewriteLine cameraId l = "/hls/".toList ++ cameraId.toList ++ '/' :: l) ∧
    (∀ l, (l.headD ' ') = '#' → rewriteLine cameraId l = l) ∧
    isSegmentLine "segment_7.ts".toList = true := by
  refine ⟨?_, ?_, ?_, by decide⟩
  · have hnl : ∀ l ∈ ls.filter (fun l => !(l == endlistMarker)), '\n' ∉ l :=
      fun l hl => (h l (List.mem_of_mem_filter hl)).1
    rw [rewritePlaylistChars, stripEndlist_flatLines ls h,
      splitOnNl_flatLines _ hnl, List.map_append]
    simp only [List.map_cons, List.map_nil, rewriteLine_nil]
    rw [joinNl_append_nil]
  · intro l hseg
    rw [rewriteLine, if_pos hseg]
  · intro l hhead
    cases l with
    | nil => rfl
    | cons c cs =>
      simp only [List.headD_cons] at hhead
      subst hhead
      rw [rewriteLine, if_neg (by simp [isSegmentLine])]

/-- Witness evaluating the playlist rewrite on a concrete four-line manifest for camera `cam1`. -/
theorem playlist_rewrite_spec_witness :
    rewritePlaylistChars "cam1" (flatLines demoLines)
      = "#EXTM3U\n#EXT-X-TARGETDURATION:2\n/hls/cam1/segment_7.ts\n".toList :=
  ((playlist_rewrite_spec "cam1" demoLines (by decide)).1).trans (by decide)

/-- C10 counterexample: the empty string is not a configured camera id, yet `startStream("")` falls back to the first camera (JavaScript falsiness) and mutates state, and `getStatus("")` returns the all-cameras map rather than `null`. -/
theorem unknown_camera_counterexample :
    lookupS stoppedManager.streams "" = none ∧
    startStream stoppedManager (some "") ≠ stoppedManager ∧
    getStatus stoppedManager (some "") ≠ .single none := by
  refine ⟨rfl, ?_, ?_⟩
  · intro hcon
    have := congrArg (fun m => m.events.length) hcon
    simp [startStream, resolveTarget, firstCameraId, stoppedManager, mkManager,
      lookupS, stoppedSession, startFFmpeg, ensureHlsDirectory] at this
  · intro hcon
    simp [getStatus, stoppedManager, mkManager] at hcon

/-- C10 (corrected): for every non-empty camera identifier that is not a key of the session map, `getStatus` returns `null`, and `startStream` and `stopStream` return without error and leave the manager completely unchanged. -/
theorem unknown_camera_spec (mgr : Manager) (c : String) (hc : c ≠ "")
    (h : lookupS mgr.streams c = none) :
    getStatus mgr (some c) = .single none ∧
    startStream mgr (some c) = mgr ∧
    stopStream mgr (some c) = mgr := by
  refine ⟨?_, ?_, ?_⟩
  · simp only [getStatus, if_neg hc, h]
  · simp only [startStream, resolveTarget_some hc, h]
  · simp only [stopStream, resolveTarget_some hc, h]

/-- Witness for the unknown-camera theorem at id `ghost`. -/
theorem unknown_camera_spec_witness :
    getStatus stoppedManager (some "ghost") = .single none ∧
    startStream stoppedManager (some "ghost") = stoppedManager ∧
    stopStream stoppedManager (some "ghost") = stoppedManager :=
  unknown_camera_spec stoppedManager "ghost" (by decide) rfl

end RtspViewer
